import Mathlib

/-!
Verification of the exonum_rocksdb wrapper layer.

The Rust sources under `src/` wrap the RocksDB engine through an FFI
boundary.  The wrapper's own logic (iterator direction/`just_seeked`
state, column-family registries, write-batch staging, path encoding,
snapshot read-option plumbing) is embedded directly from the source.
The engine primitives reached through `ffi::*` are not part of the
repository; where a claim depends on them they are modelled from the
specification's statement of the engine contract (an ordered keyspace,
seek-to-first/last, seek to the first key that is `≥` the target,
point-in-time snapshot markers), and each such definition carries a
`Modelled from the spec:` doc comment.
-/

/-- Byte strings (keys, values, paths) are lists of bytes. -/
abbrev Bytes := List Nat

/-- A stored pair, as yielded by iterators (`KVBytes` in `src/db.rs`). -/
abbrev Entry := Bytes × Bytes

/-- Travel direction of a directional iterator (`src/db.rs` lines 212-215). -/
inductive Direction where
  | Forward
  | Reverse
deriving DecidableEq

/-- Positioning mode of a directional iterator (`src/db.rs` lines 219-223). -/
inductive IteratorMode where
  | Start
  | End
  | From (key : Bytes) (dir : Direction)

/-- Modelled from the spec: a raw engine cursor over the ordered keyspace.
The engine-owned iterator state behind `DBRawIterator.inner` is a view of
the stored entries (in ascending key order) plus a cursor position;
`pos = none` or an out-of-range index is the engine's "invalid" state. -/
structure DBRawIterator where
  entries : List Entry
  pos : Option Nat

/-- A fresh raw iterator is not positioned anywhere (`DBRawIterator::new`). -/
def DBRawIterator.new (entries : List Entry) : DBRawIterator :=
  { entries := entries, pos := none }

/-- Mirrors `DBRawIterator::valid` (`src/db.rs` lines 243-245): the cursor
points at an existing element. -/
def DBRawIterator.valid (r : DBRawIterator) : Bool :=
  match r.pos with
  | some i => decide (i < r.entries.length)
  | none => false

/-- Modelled from the spec: `rocksdb_iter_seek_to_first` positions the cursor
on the first stored element (invalid on an empty keyspace). -/
def DBRawIterator.seek_to_first (r : DBRawIterator) : DBRawIterator :=
  { r with pos := some 0 }

/-- Modelled from the spec: `rocksdb_iter_seek_to_last` positions the cursor
on the last stored element (invalid on an empty keyspace). -/
def DBRawIterator.seek_to_last (r : DBRawIterator) : DBRawIterator :=
  { r with pos := some (r.entries.length - 1) }

/-- Modelled from the spec and the doc comment of `DBRawIterator::seek`
(`src/db.rs` lines 333-336): position on the given key, or on the first key
that lexicographically follows it; invalid if no stored key is `≥` the
target. -/
def DBRawIterator.seek (r : DBRawIterator) (key : Bytes) : DBRawIterator :=
  { r with pos := some (r.entries.findIdx (fun e => decide (key ≤ e.1))) }

/-- Modelled from the spec: `rocksdb_iter_next` advances the cursor one
element forward. -/
def DBRawIterator.next (r : DBRawIterator) : DBRawIterator :=
  { r with pos := r.pos.map (fun i => i + 1) }

/-- Modelled from the spec: `rocksdb_iter_prev` moves the cursor one element
back; stepping back from the first element invalidates the cursor. -/
def DBRawIterator.prev (r : DBRawIterator) : DBRawIterator :=
  { r with pos := match r.pos with
      | some 0 => none
      | some (i + 1) => some i
      | none => none }

/-- Mirrors `DBRawIterator::key_inner`/`key` (`src/db.rs` lines 436-451):
a copy of the current key when the cursor is valid, nothing otherwise. -/
def DBRawIterator.key (r : DBRawIterator) : Option Bytes :=
  match r.pos with
  | some i =>
      if h : i < r.entries.length then some (r.entries.get ⟨i, h⟩).1 else none
  | none => none

/-- Mirrors `DBRawIterator::value_inner`/`value` (`src/db.rs` lines 460-475). -/
def DBRawIterator.value (r : DBRawIterator) : Option Bytes :=
  match r.pos with
  | some i =>
      if h : i < r.entries.length then some (r.entries.get ⟨i, h⟩).2 else none
  | none => none

/-- The element the cursor currently rests on, when it is valid. -/
def DBRawIterator.currentEntry (r : DBRawIterator) : Option Entry :=
  match r.key, r.value with
  | some k, some v => some (k, v)
  | _, _ => none

/-- Mirrors `DBIterator` (`src/db.rs` lines 206-210): a raw cursor plus a
travel direction and the `just_seeked` suppression flag. -/
structure DBIterator where
  raw : DBRawIterator
  direction : Direction
  just_seeked : Bool

/-- Mirrors `DBIterator::set_mode` (`src/db.rs` lines 512-530): reposition
the raw cursor, fix the direction, and raise `just_seeked`. -/
def DBIterator.set_mode (it : DBIterator) (mode : IteratorMode) : DBIterator :=
  match mode with
  | .Start =>
      { it with raw := it.raw.seek_to_first, direction := .Forward, just_seeked := true }
  | .End =>
      { it with raw := it.raw.seek_to_last, direction := .Reverse, just_seeked := true }
  | .From key dir =>
      { it with raw := it.raw.seek key, direction := dir, just_seeked := true }

/-- Mirrors `DBIterator::new` (`src/db.rs` lines 487-495): wrap a fresh raw
iterator (direction and flag are blown away by `set_mode`). -/
def DBIterator.new (entries : List Entry) (mode : IteratorMode) : DBIterator :=
  DBIterator.set_mode
    { raw := DBRawIterator.new entries, direction := .Forward, just_seeked := false }
    mode

/-- Mirrors the stepping half of `impl Iterator for DBIterator::next`
(`src/db.rs` lines 543-550): the initial call after seeking does not move the
cursor (it only lowers the flag); any other call performs one physical step
in the travel direction. -/
def DBIterator.step_state (it : DBIterator) : DBIterator :=
  if it.just_seeked then { it with just_seeked := false }
  else
    match it.direction with
    | .Forward => { it with raw := it.raw.next }
    | .Reverse => { it with raw := it.raw.prev }

/-- Mirrors `impl Iterator for DBIterator::next` (`src/db.rs` lines 540-561):
step physically unless the cursor was just positioned, then yield the element
under the cursor if it is valid.  `Option.getD` stands for the `unwrap`
calls, which are proven unreachable in the invalid case. -/
def DBIterator.next (it : DBIterator) : Option Entry × DBIterator :=
  let stepped : DBIterator := it.step_state
  if stepped.raw.valid then
    (some ((stepped.raw.key).getD [], (stepped.raw.value).getD []), stepped)
  else
    (none, stepped)

/-- Drain a directional iterator: the list of elements yielded by up to
`fuel` successive calls to `next`, stopping at the first `none`. -/
def DBIterator.run : DBIterator → Nat → List Entry
  | _, 0 => []
  | it, fuel + 1 =>
      match it.next with
      | (none, _) => []
      | (some e, it2) => e :: DBIterator.run it2 fuel

/-- The column-family registry of one database: the
`BTreeMap<String, ColumnFamily>` behind `DB.cfs`, modelled extensionally as
a partial map from family name to its native handle (handles are identified
by numeric ids). -/
def CfRegistry := String → Option Nat

/-- The registry of a freshly created map. -/
def CfRegistry.empty : CfRegistry := fun _ => none

/-- Mirrors `BTreeMap::insert`. -/
def CfRegistry.insert (m : CfRegistry) (name : String) (h : Nat) : CfRegistry :=
  fun n => if n = name then some h else m n

/-- Mirrors `BTreeMap::remove`. -/
def CfRegistry.remove (m : CfRegistry) (name : String) : CfRegistry :=
  fun n => if n = name then none else m n

/-- Mirrors `DB::cf_handle` (`src/db.rs` lines 893-895). -/
def DB.cf_handle (m : CfRegistry) (name : String) : Option Nat := m name

/-- Mirrors `OptimisticTransactionDB::cf_handle`
(`src/optimistic_txn_db.rs` lines 162-164). -/
def OptimisticTransactionDB.cf_handle (m : CfRegistry) (name : String) :
    Option Nat := m name

/-- Mirrors `DB::drop_cf` (`src/db.rs` lines 879-890): the entry is removed
from the registry, then the engine-side drop runs (its result `engineDrop`
is passed through); an unknown name is an explicit "Invalid column family"
error. -/
def DB.drop_cf (m : CfRegistry) (name : String)
    (engineDrop : Except String Unit) : CfRegistry × Except String Unit :=
  match m name with
  | some _ => (CfRegistry.remove m name, engineDrop)
  | none => (m, Except.error ("Invalid column family: " ++ name))

/-- Mirrors `OptimisticTransactionDB::drop_cf` (`src/optimistic_txn_db.rs`
lines 166-177): the handle is looked up with `get` and the engine-side drop
runs, but the entry is never removed from the registry. -/
def OptimisticTransactionDB.drop_cf (m : CfRegistry) (name : String)
    (engineDrop : Except String Unit) : CfRegistry × Except String Unit :=
  match m name with
  | some _ => (m, engineDrop)
  | none => (m, Except.error ("Invalid column family: " ++ name))

/-- Path bytes as handed to `CString::new` after `to_string_lossy`. -/
abbrev PathBytes := List Nat

/-- Mirrors `CString::new`: construction fails exactly when the bytes
contain an interior NUL. -/
def cstringNew (b : PathBytes) : Option PathBytes :=
  if b.contains 0 then none else some b

/-- Mirrors `utils::to_cpath` (`src/utils.rs` lines 25-35). -/
def to_cpath (path : PathBytes) : Except String PathBytes :=
  match cstringNew path with
  | some c => Except.ok c
  | none => Except.error "Failed to convert path to CString when opening DB."

/-- Result of a fallible wrapper call, distinguishing a typed error from a
process abort (an `unwrap` failure). -/
inductive Outcome (α : Type) where
  | ok (val : α)
  | err (msg : String)
  | panicked

/-- Requested family list extended with the reserved name, mirroring the
`cfs_v` construction of `DB::open_cf` (`src/db.rs` lines 681-685) and
`OptimisticTransactionDB::open_cf` (`src/optimistic_txn_db.rs` lines
72-76). -/
def cfsVector (cfs : List String) : List String :=
  if cfs.contains "default" then cfs else cfs ++ ["default"]

/-- Fold the zipped (name, handle) pairs into the registry, mirroring the
insertion loop of the family-aware opens. -/
def registerAll (pairs : List (String × Nat)) : CfRegistry :=
  pairs.foldl (fun m p => CfRegistry.insert m p.1 p.2) CfRegistry.empty

/-- Mirrors `DB::open_cf` (`src/db.rs` lines 654-743) with the engine
abstracted: `engineHandles` is the handle vector populated by
`rocksdb_open_column_families`.  Path-encoding failure is a typed error; an
empty request list opens without touching the registry; any null handle is a
typed error raised before any family is registered. -/
def DB.open_cf (path : PathBytes) (cfs : List String)
    (engineHandles : List (Option Nat)) : Outcome CfRegistry :=
  match cstringNew path with
  | none => Outcome.err "Failed to convert path to CString when opening DB."
  | some _ =>
      if cfs.isEmpty then Outcome.ok CfRegistry.empty
      else
        if engineHandles.any (fun h => h.isNone) then
          Outcome.err "Received null column family handle from DB."
        else
          Outcome.ok (registerAll ((cfsVector cfs).zip
            (engineHandles.filterMap (fun h => h))))

/-- Mirrors `OptimisticTransactionDB::open_cf` (`src/optimistic_txn_db.rs`
lines 58-133), identical in structure to `DB::open_cf` except that path
conversion goes through `utils::to_cpath`. -/
def OptimisticTransactionDB.open_cf (path : PathBytes) (cfs : List String)
    (engineHandles : List (Option Nat)) : Outcome CfRegistry :=
  match to_cpath path with
  | Except.error e => Outcome.err e
  | Except.ok _ =>
      if cfs.isEmpty then Outcome.ok CfRegistry.empty
      else
        if engineHandles.any (fun h => h.isNone) then
          Outcome.err "Received null column family handle from DB."
        else
          Outcome.ok (registerAll ((cfsVector cfs).zip
            (engineHandles.filterMap (fun h => h))))

/-- Mirrors `DB::destroy` (`src/db.rs` lines 745-751): the path is converted
with `CString::new(...).unwrap()`, so an unencodable path aborts the process
instead of producing the typed error channel. -/
def DB.destroy (path : PathBytes) (engine : Except String Unit) : Outcome Unit :=
  match cstringNew path with
  | none => Outcome.panicked
  | some _ =>
      match engine with
      | Except.ok _ => Outcome.ok ()
      | Except.error e => Outcome.err e

/-- Mirrors `DB::repair` (`src/db.rs` lines 753-759), which also unwraps the
path conversion. -/
def DB.repair (path : PathBytes) (engine : Except String Unit) : Outcome Unit :=
  match cstringNew path with
  | none => Outcome.panicked
  | some _ =>
      match engine with
      | Except.ok _ => Outcome.ok ()
      | Except.error e => Outcome.err e

/-- Mirrors `TransactionDB::open` (`src/transaction_db/mod.rs` lines 41-82):
path-encoding failure is a typed error. -/
def TransactionDB.open (path : PathBytes) (engine : Except String Unit) :
    Outcome Unit :=
  match cstringNew path with
  | none => Outcome.err "Failed to convert path to CString when opening DB."
  | some _ =>
      match engine with
      | Except.ok _ => Outcome.ok ()
      | Except.error e => Outcome.err e

/-- Mirrors `TransactionDB::destroy` (`src/transaction_db/mod.rs` lines
151-157), which unwraps the path conversion. -/
def TransactionDB.destroy (path : PathBytes) (engine : Except String Unit) :
    Outcome Unit :=
  match cstringNew path with
  | none => Outcome.panicked
  | some _ =>
      match engine with
      | Except.ok _ => Outcome.ok ()
      | Except.error e => Outcome.err e

/-- Mirrors `TransactionDB::repair` (`src/transaction_db/mod.rs` lines
159-165), which unwraps the path conversion. -/
def TransactionDB.repair (path : PathBytes) (engine : Except String Unit) :
    Outcome Unit :=
  match cstringNew path with
  | none => Outcome.panicked
  | some _ =>
      match engine with
      | Except.ok _ => Outcome.ok ()
      | Except.error e => Outcome.err e

/-- Mirrors `OptimisticTransactionDB::destroy` (`src/optimistic_txn_db.rs`
lines 179-185): path conversion goes through `to_cpath`, a typed error. -/
def OptimisticTransactionDB.destroy (path : PathBytes)
    (engine : Except String Unit) : Outcome Unit :=
  match to_cpath path with
  | Except.error e => Outcome.err e
  | Except.ok _ =>
      match engine with
      | Except.ok _ => Outcome.ok ()
      | Except.error e => Outcome.err e

/-- One staged mutation of a write batch (`put`/`merge`/`delete`, optionally
scoped to a column family identified by its handle id). -/
inductive BatchOp where
  | putOp (cf : Option Nat) (key value : Bytes)
  | mergeOp (cf : Option Nat) (key value : Bytes)
  | deleteOp (cf : Option Nat) (key : Bytes)

/-- Mirrors `WriteBatch` (`src/db.rs` lines 95-97): the engine-owned batch
behind `inner` is its ordered list of staged operations. -/
structure WriteBatch where
  ops : List BatchOp

/-- Mirrors `WriteBatch::default` (`src/db.rs` lines 1171-1175):
`rocksdb_writebatch_create` yields an empty batch. -/
def WriteBatch.default : WriteBatch := ⟨[]⟩

/-- Mirrors `WriteBatch::put` (`src/db.rs` lines 1090-1101): staging appends
one operation and always reports success. -/
def WriteBatch.put (b : WriteBatch) (key value : Bytes) :
    WriteBatch × Except String Unit :=
  (⟨b.ops ++ [BatchOp.putOp none key value]⟩, Except.ok ())

/-- Mirrors `WriteBatch::put_cf` (`src/db.rs` lines 1103-1115). -/
def WriteBatch.put_cf (b : WriteBatch) (cf : Nat) (key value : Bytes) :
    WriteBatch × Except String Unit :=
  (⟨b.ops ++ [BatchOp.putOp (some cf) key value]⟩, Except.ok ())

/-- Mirrors `WriteBatch::merge` (`src/db.rs` lines 1117-1128). -/
def WriteBatch.merge (b : WriteBatch) (key value : Bytes) :
    WriteBatch × Except String Unit :=
  (⟨b.ops ++ [BatchOp.mergeOp none key value]⟩, Except.ok ())

/-- Mirrors `WriteBatch::merge_cf` (`src/db.rs` lines 1130-1142). -/
def WriteBatch.merge_cf (b : WriteBatch) (cf : Nat) (key value : Bytes) :
    WriteBatch × Except String Unit :=
  (⟨b.ops ++ [BatchOp.mergeOp (some cf) key value]⟩, Except.ok ())

/-- Mirrors `WriteBatch::delete` (`src/db.rs` lines 1147-1156). -/
def WriteBatch.delete (b : WriteBatch) (key : Bytes) :
    WriteBatch × Except String Unit :=
  (⟨b.ops ++ [BatchOp.deleteOp none key]⟩, Except.ok ())

/-- Mirrors `WriteBatch::delete_cf` (`src/db.rs` lines 1158-1168). -/
def WriteBatch.delete_cf (b : WriteBatch) (cf : Nat) (key : Bytes) :
    WriteBatch × Except String Unit :=
  (⟨b.ops ++ [BatchOp.deleteOp (some cf) key]⟩, Except.ok ())

/-- Mirrors `WriteBatch::len` (`src/db.rs` lines 1081-1083).  Modelled from
the spec: `rocksdb_writebatch_count` reports the count of staged
operations. -/
def WriteBatch.len (b : WriteBatch) : Nat := b.ops.length

/-- Mirrors `WriteBatch::is_empty` (`src/db.rs` lines 1085-1087). -/
def WriteBatch.is_empty (b : WriteBatch) : Bool := b.len == 0

/-- Dispatch one staged operation through the corresponding staging method. -/
def WriteBatch.stage (b : WriteBatch) (op : BatchOp) :
    WriteBatch × Except String Unit :=
  match op with
  | BatchOp.putOp none k v => b.put k v
  | BatchOp.putOp (some cf) k v => b.put_cf cf k v
  | BatchOp.mergeOp none k v => b.merge k v
  | BatchOp.mergeOp (some cf) k v => b.merge_cf cf k v
  | BatchOp.deleteOp none k => b.delete k
  | BatchOp.deleteOp (some cf) k => b.delete_cf cf k

/-- Stage a sequence of operations, collecting each staging result. -/
def WriteBatch.stageAll (b : WriteBatch) :
    List BatchOp → WriteBatch × List (Except String Unit)
  | [] => (b, [])
  | op :: rest =>
      let r := b.stage op
      let rest2 := WriteBatch.stageAll r.1 rest
      (rest2.1, r.2 :: rest2.2)

/-- Modelled from the spec: the committed keyspace of one column family, an
association list from key to value. -/
abbrev EngineState := List Entry

/-- Modelled from the spec: an engine point read of the committed value. -/
def engineGet (s : EngineState) (k : Bytes) : Option Bytes :=
  (s.find? (fun e => e.1 == k)).map (fun e => e.2)

/-- Modelled from the spec: an engine put associates the key with the value,
leaving every other association untouched. -/
def enginePut : EngineState → Bytes → Bytes → EngineState
  | [], k, v => [(k, v)]
  | e :: rest, k, v =>
      if e.1 == k then (k, v) :: rest else e :: enginePut rest k v

/-- Modelled from the spec: an engine delete removes the key's association. -/
def engineDelete : EngineState → Bytes → EngineState
  | [], _ => []
  | e :: rest, k => if e.1 == k then rest else e :: engineDelete rest k

/-- The keyspace of the whole store, per column family (`none` addresses the
unnamed default target of the family-less operations). -/
def StoreState := Option Nat → EngineState

/-- Modelled from the spec (section 8): the effect of one staged operation on
the store; `mergeFn` abstracts the engine's merge operator. -/
def applyOp (mergeFn : Option Bytes → Bytes → Bytes) (s : StoreState)
    (op : BatchOp) : StoreState :=
  match op with
  | BatchOp.putOp cf k v =>
      fun c => if c = cf then enginePut (s c) k v else s c
  | BatchOp.mergeOp cf k v =>
      fun c => if c = cf then enginePut (s c) k (mergeFn (engineGet (s c) k) v)
      else s c
  | BatchOp.deleteOp cf k =>
      fun c => if c = cf then engineDelete (s c) k else s c

/-- Mirrors `DB::write`/`DB::write_opt` (`src/db.rs` lines 765-774).
Modelled from the spec (section 8): applying a batch atomically produces the
same final state as applying each staged operation in order. -/
def DB.write (mergeFn : Option Bytes → Bytes → Bytes) (s : StoreState)
    (b : WriteBatch) : StoreState × Except String Unit :=
  (b.ops.foldl (applyOp mergeFn) s, Except.ok ())

/-- Mirrors `Snapshot` (`src/db.rs` lines 120-123).  Modelled from the spec:
the engine marker from `rocksdb_create_snapshot` pins the state as of
snapshot creation. -/
structure Snapshot where
  view : EngineState

/-- Mirrors `DB::snapshot`/`Snapshot::new` (`src/db.rs` lines 570-577,
921-923). -/
def DB.snapshot (s : EngineState) : Snapshot := ⟨s⟩

/-- Mirrors `ReadOptions` as far as the snapshot marker is concerned. -/
structure ReadOptions where
  snapshot : Option EngineState

/-- Mirrors `ReadOptions::default` (`src/db.rs` lines 1234-1238): no snapshot
is set. -/
def ReadOptions.default : ReadOptions := ⟨none⟩

/-- Mirrors `ReadOptions::set_snapshot` (`src/db.rs` lines 1217-1221): the
read options carry the snapshot's pinned view. -/
def ReadOptions.set_snapshot (o : ReadOptions) (sn : Snapshot) : ReadOptions :=
  { o with snapshot := some sn.view }

/-- Modelled from the spec: an engine point read honours the snapshot carried
by the read options and otherwise reads the current state (mirrors
`DB::get_opt`, `src/db.rs` lines 782-809). -/
def DB.get_opt (current : EngineState) (key : Bytes) (opts : ReadOptions) :
    Option Bytes :=
  engineGet ((opts.snapshot).getD current) key

/-- Mirrors `Snapshot::get` (`src/db.rs` lines 607-611): default read
options, pin the snapshot, read through `DB::get_opt`. -/
def Snapshot.get (sn : Snapshot) (current : EngineState) (key : Bytes) :
    Option Bytes :=
  DB.get_opt current key (ReadOptions.default.set_snapshot sn)

/-- Mirrors `Snapshot::iterator` (`src/db.rs` lines 579-583): a directional
iterator over the view pinned by the snapshot-carrying read options. -/
def Snapshot.iterator (sn : Snapshot) (current : EngineState)
    (mode : IteratorMode) : DBIterator :=
  DBIterator.new (((ReadOptions.default.set_snapshot sn).snapshot).getD current)
    mode

/-- Modelled from the spec (section 4.4): a transaction carries a local write
set; reads see the transaction's own writes first, then the view pinned by
the read options. -/
structure Transaction where
  writes : List Entry

/-- Mirrors `transaction_begin`: a fresh transaction has written nothing. -/
def Transaction.begin : Transaction := ⟨[]⟩

/-- Mirrors `Transaction::get_opt` (`src/transaction_db/transaction.rs`
lines 53-80) under the modelled engine contract. -/
def Transaction.get_opt (txn : Transaction) (current : EngineState)
    (key : Bytes) (opts : ReadOptions) : Option Bytes :=
  match engineGet txn.writes key with
  | some v => some v
  | none => DB.get_opt current key opts

/-- Mirrors the optimistic `Snapshot::get` (`src/optimistic_txn_db.rs` lines
255-263): begin a throwaway transaction with snapshot-pinned options and
read through it with snapshot-carrying read options. -/
def OptimisticTransactionDB.snapshot_get (sn : Snapshot)
    (current : EngineState) (key : Bytes) : Option Bytes :=
  Transaction.get_opt Transaction.begin current key
    (ReadOptions.default.set_snapshot sn)

/-- Mirrors the pessimistic `Snapshot::get` (`src/transaction_db/mod.rs`
lines 203-207): a direct database read through snapshot-carrying read
options, with no transaction involved. -/
def TransactionDB.snapshot_get (sn : Snapshot) (current : EngineState)
    (key : Bytes) : Option Bytes :=
  DB.get_opt current key (ReadOptions.default.set_snapshot sn)

/-- How a snapshot read is routed. -/
inductive ReadPath where
  | directDb
  | throughTxn
deriving DecidableEq

/-- Structural description of one snapshot read operation: its routing, and
whether the throwaway transaction's options and the read options pin the
snapshot. -/
structure SnapshotReadImpl where
  path : ReadPath
  txn_opts_set_snapshot : Bool
  read_opts_set_snapshot : Bool
deriving DecidableEq

/-- Read from `src/optimistic_txn_db.rs` lines 255-263: `Snapshot::get`
begins a transaction with `set_snapshot(true)` options and snapshot-pinned
read options. -/
def OptimisticTransactionDB.snapshot_get_impl : SnapshotReadImpl :=
  ⟨ReadPath.throughTxn, true, true⟩

/-- Read from `src/optimistic_txn_db.rs` lines 265-273 (`Snapshot::get_cf`). -/
def OptimisticTransactionDB.snapshot_get_cf_impl : SnapshotReadImpl :=
  ⟨ReadPath.throughTxn, true, true⟩

/-- Read from `src/optimistic_txn_db.rs` lines 211-219 (`Snapshot::iterator`). -/
def OptimisticTransactionDB.snapshot_iterator_impl : SnapshotReadImpl :=
  ⟨ReadPath.throughTxn, true, true⟩

/-- Read from `src/optimistic_txn_db.rs` lines 221-233
(`Snapshot::iterator_cf`). -/
def OptimisticTransactionDB.snapshot_iterator_cf_impl : SnapshotReadImpl :=
  ⟨ReadPath.throughTxn, true, true⟩

/-- Read from `src/optimistic_txn_db.rs` lines 235-243
(`Snapshot::raw_iterator`). -/
def OptimisticTransactionDB.snapshot_raw_iterator_impl : SnapshotReadImpl :=
  ⟨ReadPath.throughTxn, true, true⟩

/-- Read from `src/optimistic_txn_db.rs` lines 245-253
(`Snapshot::raw_iterator_cf`). -/
def OptimisticTransactionDB.snapshot_raw_iterator_cf_impl : SnapshotReadImpl :=
  ⟨ReadPath.throughTxn, true, true⟩

/-- Read from `src/transaction_db/mod.rs` lines 203-207: the pessimistic
`Snapshot::get` calls `self.db.get_opt` directly; no transaction is begun. -/
def TransactionDB.snapshot_get_impl : SnapshotReadImpl :=
  ⟨ReadPath.directDb, false, true⟩

/-- Read from `src/transaction_db/mod.rs` lines 185-192: the pessimistic
`Snapshot::iterator` begins a throwaway transaction with
`TransactionOptions::default()` (no snapshot pin on the transaction). -/
def TransactionDB.snapshot_iterator_impl : SnapshotReadImpl :=
  ⟨ReadPath.throughTxn, false, true⟩

/-- Read from `src/transaction_db/mod.rs` lines 194-201
(`Snapshot::raw_iterator`). -/
def TransactionDB.snapshot_raw_iterator_impl : SnapshotReadImpl :=
  ⟨ReadPath.throughTxn, false, true⟩

/-- The yield of `next` is exactly the element under the (already stepped)
cursor. -/
theorem DBRawIterator.yield_eq_currentEntry (r : DBRawIterator) :
    (if r.valid then some ((r.key).getD [], (r.value).getD []) else none)
      = r.currentEntry := by
  match r with
  | ⟨es, none⟩ => simp [DBRawIterator.valid, DBRawIterator.key, DBRawIterator.value,
      DBRawIterator.currentEntry]
  | ⟨es, some i⟩ =>
      by_cases h : i < es.length
      · simp [DBRawIterator.valid, DBRawIterator.key, DBRawIterator.value,
          DBRawIterator.currentEntry, h]
      · simp [DBRawIterator.valid, DBRawIterator.key, DBRawIterator.value,
          DBRawIterator.currentEntry, h]

/-- A cursor rests on no element exactly when it is invalid. -/
theorem DBRawIterator.currentEntry_eq_none_iff (r : DBRawIterator) :
    r.currentEntry = none ↔ r.valid = false := by
  match r with
  | ⟨es, none⟩ =>
      simp [DBRawIterator.currentEntry, DBRawIterator.key, DBRawIterator.value,
        DBRawIterator.valid]
  | ⟨es, some i⟩ =>
      by_cases h : i < es.length <;>
        simp [DBRawIterator.currentEntry, DBRawIterator.key, DBRawIterator.value,
          DBRawIterator.valid, h]

/-- When a cursor rests on an element, it is valid and its accessors return
that element's components. -/
theorem DBRawIterator.currentEntry_eq_some (r : DBRawIterator) (e : Entry)
    (h : r.currentEntry = some e) :
    r.valid = true ∧ r.key = some e.1 ∧ r.value = some e.2 := by
  match r with
  | ⟨es, none⟩ =>
      simp [DBRawIterator.currentEntry, DBRawIterator.key, DBRawIterator.value] at h
  | ⟨es, some i⟩ =>
      by_cases hi : i < es.length
      · simp [DBRawIterator.currentEntry, DBRawIterator.key, DBRawIterator.value, hi] at h
        simp [DBRawIterator.valid, DBRawIterator.key, DBRawIterator.value, hi, ← h]
      · simp [DBRawIterator.currentEntry, DBRawIterator.key, DBRawIterator.value, hi] at h

/-- Key accessor availability coincides with validity
(`src/db.rs` lines 436-446). -/
theorem DBRawIterator.valid_iff_key_isSome (r : DBRawIterator) :
    r.valid = true ↔ (r.key).isSome = true := by
  match r with
  | ⟨es, none⟩ => simp [DBRawIterator.valid, DBRawIterator.key]
  | ⟨es, some i⟩ =>
      by_cases h : i < es.length <;> simp [DBRawIterator.valid, DBRawIterator.key, h]

/-- Value accessor availability coincides with validity
(`src/db.rs` lines 460-470). -/
theorem DBRawIterator.valid_iff_value_isSome (r : DBRawIterator) :
    r.valid = true ↔ (r.value).isSome = true := by
  match r with
  | ⟨es, none⟩ => simp [DBRawIterator.valid, DBRawIterator.value]
  | ⟨es, some i⟩ =>
      by_cases h : i < es.length <;> simp [DBRawIterator.valid, DBRawIterator.value, h]

/-- One call to `next` yields the element under the stepped cursor and leaves
the iterator in the stepped state. -/
theorem DBIterator.next_eq (it : DBIterator) :
    it.next = (it.step_state.raw.currentEntry, it.step_state) := by
  rw [← DBRawIterator.yield_eq_currentEntry it.step_state.raw]
  by_cases hv : it.step_state.raw.valid <;> simp [DBIterator.next, hv]

/-- C1: for every directional iterator and every positioning call
(construction with a mode, or `set_mode` with `Start`, `End` or
`From(key, dir)`), the `just_seeked` flag is raised; a `next` issued while
the flag is raised performs no physical step (the raw cursor is unchanged)
and yields the element the cursor landed on; every `next` issued with the
flag lowered performs exactly one physical step (raw `next` for `Forward`,
raw `prev` for `Reverse`) before testing validity, and yields the element
under the stepped cursor. -/
theorem C1_first_next_after_positioning_performs_no_step
    (it : DBIterator) (m : IteratorMode) (es : List Entry) :
    ((DBIterator.new es m).just_seeked = true)
    ∧ ((it.set_mode m).just_seeked = true)
    ∧ (it.just_seeked = true →
        ((it.next).2.raw = it.raw
          ∧ (it.next).1 = it.raw.currentEntry
          ∧ (it.next).2.just_seeked = false))
    ∧ (it.just_seeked = false →
        ((it.next).2.raw = (match it.direction with
            | .Forward => it.raw.next
            | .Reverse => it.raw.prev)
          ∧ (it.next).1 = ((it.next).2.raw).currentEntry)) := by
  refine ⟨?_, ?_, ?_, ?_⟩
  · cases m <;> rfl
  · cases m <;> rfl
  · intro h
    rw [DBIterator.next_eq]
    simp [DBIterator.step_state, h]
  · intro h
    rw [DBIterator.next_eq]
    cases hd : it.direction <;> simp [DBIterator.step_state, h, hd]

/-- Witness for C1: on the one-entry keyspace, the iterator positioned by
`Start` has the flag raised, and its first `next` leaves the raw cursor
where positioning put it. -/
theorem C1_witness :
    (DBIterator.new [([1], [2])] IteratorMode.Start).just_seeked = true
    ∧ ((DBIterator.new [([1], [2])] IteratorMode.Start).next).2.raw
        = (DBIterator.new [([1], [2])] IteratorMode.Start).raw :=
  ⟨rfl,
    ((C1_first_next_after_positioning_performs_no_step
        (DBIterator.new [([1], [2])] IteratorMode.Start)
        IteratorMode.Start [([1], [2])]).2.2.1 rfl).1⟩

/-- C10: a directional iterator's `next` yields `none` exactly when the raw
cursor is invalid after the (possibly suppressed) physical step; whenever it
yields an element, the cursor is valid and the element is the one under the
cursor, so the `unwrap` calls on `raw.key()`/`raw.value()` cannot fail; and
the raw accessors return `some` precisely when the cursor is valid. -/
theorem C10_next_none_iff_cursor_invalid (it : DBIterator) (r : DBRawIterator) :
    ((it.next).1 = none ↔ (it.next).2.raw.valid = false)
    ∧ (∀ e : Entry, (it.next).1 = some e →
        ((it.next).2.raw.valid = true
          ∧ (it.next).2.raw.key = some e.1
          ∧ (it.next).2.raw.value = some e.2))
    ∧ (r.valid = true ↔ (r.key).isSome = true)
    ∧ (r.valid = true ↔ (r.value).isSome = true) := by
  refine ⟨?_, ?_, DBRawIterator.valid_iff_key_isSome r,
    DBRawIterator.valid_iff_value_isSome r⟩
  · rw [DBIterator.next_eq]
    exact DBRawIterator.currentEntry_eq_none_iff it.step_state.raw
  · intro e he
    rw [DBIterator.next_eq] at he ⊢
    exact DBRawIterator.currentEntry_eq_some it.step_state.raw e he

/-- Witness for C10: on the one-entry keyspace, the first `next` yields the
stored pair and the cursor it was read from is valid. -/
theorem C10_witness :
    ((DBIterator.new [([1], [2])] IteratorMode.Start).next).2.raw.valid = true :=
  (((C10_next_none_iff_cursor_invalid
      (DBIterator.new [([1], [2])] IteratorMode.Start)
      (DBRawIterator.new [])).2.1 ([1], [2])) rfl).1

/-- Forward draining from a stepped state at position `i` yields the entries
after `i`. -/
theorem DBIterator.run_forward (es : List Entry) :
    ∀ (fuel i : Nat), es.length - (i + 1) ≤ fuel →
    DBIterator.run ⟨⟨es, some i⟩, .Forward, false⟩ fuel = es.drop (i + 1) := by
  intro fuel
  induction fuel with
  | zero =>
      intro i h
      rw [DBIterator.run]
      exact (List.drop_eq_nil_of_le (by omega)).symm
  | succ n ih =>
      intro i h
      have hnext : DBIterator.next ⟨⟨es, some i⟩, .Forward, false⟩
          = ((DBRawIterator.mk es (some (i + 1))).currentEntry,
             ⟨⟨es, some (i + 1)⟩, .Forward, false⟩) := by
        rw [DBIterator.next_eq]; rfl
      by_cases hi : i + 1 < es.length
      · have hcur : (DBRawIterator.mk es (some (i + 1))).currentEntry
            = some (es.get ⟨i + 1, hi⟩) := by
          simp [DBRawIterator.currentEntry, DBRawIterator.key, DBRawIterator.value, hi]
        rw [DBIterator.run, hnext, hcur]
        rw [List.drop_eq_getElem_cons hi]
        exact congrArg _ (ih (i + 1) (by omega))
      · have hcur : (DBRawIterator.mk es (some (i + 1))).currentEntry = none := by
          simp [DBRawIterator.currentEntry, DBRawIterator.key, DBRawIterator.value, hi]
        rw [DBIterator.run, hnext, hcur]
        exact (List.drop_eq_nil_of_le (by omega)).symm

/-- Reverse draining from a stepped state at position `i` yields the entries
before `i`, backwards. -/
theorem DBIterator.run_reverse (es : List Entry) :
    ∀ (fuel i : Nat), i ≤ fuel → i ≤ es.length →
    DBIterator.run ⟨⟨es, some i⟩, .Reverse, false⟩ fuel = (es.take i).reverse := by
  intro fuel
  induction fuel with
  | zero =>
      intro i h _
      rw [DBIterator.run]
      have : i = 0 := by omega
      simp [this]
  | succ n ih =>
      intro i h hlen
      match i with
      | 0 =>
          have hnext : DBIterator.next ⟨⟨es, some 0⟩, .Reverse, false⟩
              = ((DBRawIterator.mk es none).currentEntry,
                 ⟨⟨es, none⟩, .Reverse, false⟩) := by
            rw [DBIterator.next_eq]; rfl
          have hcur : (DBRawIterator.mk es none).currentEntry = none := rfl
          rw [DBIterator.run, hnext, hcur]
          simp
      | j + 1 =>
          have hj : j < es.length := by omega
          have hnext : DBIterator.next ⟨⟨es, some (j + 1)⟩, .Reverse, false⟩
              = ((DBRawIterator.mk es (some j)).currentEntry,
                 ⟨⟨es, some j⟩, .Reverse, false⟩) := by
            rw [DBIterator.next_eq]; rfl
          have hcur : (DBRawIterator.mk es (some j)).currentEntry
              = some (es.get ⟨j, hj⟩) := by
            simp [DBRawIterator.currentEntry, DBRawIterator.key, DBRawIterator.value, hj]
          rw [DBIterator.run, hnext, hcur]
          have hts : (List.take (j + 1) es).reverse
              = es.get ⟨j, hj⟩ :: (List.take j es).reverse := by
            rw [List.take_succ, List.getElem?_eq_getElem hj]
            simp
          rw [hts]
          exact congrArg _ (ih j (by omega) (by omega))

/-- Draining a freshly positioned (`just_seeked`) forward iterator at
position `i` yields the entries from `i` on: the landed element is included. -/
theorem DBIterator.run_seeked_forward (es : List Entry) (i fuel : Nat)
    (h : es.length - (i + 1) ≤ fuel) :
    DBIterator.run ⟨⟨es, some i⟩, .Forward, true⟩ (fuel + 1) = es.drop i := by
  have hnext : DBIterator.next ⟨⟨es, some i⟩, .Forward, true⟩
      = ((DBRawIterator.mk es (some i)).currentEntry,
         ⟨⟨es, some i⟩, .Forward, false⟩) := by
    rw [DBIterator.next_eq]; rfl
  by_cases hi : i < es.length
  · have hcur : (DBRawIterator.mk es (some i)).currentEntry
        = some (es.get ⟨i, hi⟩) := by
      simp [DBRawIterator.currentEntry, DBRawIterator.key, DBRawIterator.value, hi]
    rw [DBIterator.run, hnext, hcur]
    rw [List.drop_eq_getElem_cons hi]
    exact congrArg _ (DBIterator.run_forward es fuel i h)
  · have hcur : (DBRawIterator.mk es (some i)).currentEntry = none := by
      simp [DBRawIterator.currentEntry, DBRawIterator.key, DBRawIterator.value, hi]
    rw [DBIterator.run, hnext, hcur]
    exact (List.drop_eq_nil_of_le (by omega)).symm

/-- Draining a freshly positioned (`just_seeked`) reverse iterator at a valid
position `i` yields the entries up to and including `i`, backwards. -/
theorem DBIterator.run_seeked_reverse (es : List Entry) (i fuel : Nat)
    (hi : i < es.length) (h : i ≤ fuel) :
    DBIterator.run ⟨⟨es, some i⟩, .Reverse, true⟩ (fuel + 1)
      = (es.take (i + 1)).reverse := by
  have hnext : DBIterator.next ⟨⟨es, some i⟩, .Reverse, true⟩
      = ((DBRawIterator.mk es (some i)).currentEntry,
         ⟨⟨es, some i⟩, .Reverse, false⟩) := by
    rw [DBIterator.next_eq]; rfl
  have hcur : (DBRawIterator.mk es (some i)).currentEntry
      = some (es.get ⟨i, hi⟩) := by
    simp [DBRawIterator.currentEntry, DBRawIterator.key, DBRawIterator.value, hi]
  rw [DBIterator.run, hnext, hcur]
  have hts : (List.take (i + 1) es).reverse
      = es.get ⟨i, hi⟩ :: (List.take i es).reverse := by
    rw [List.take_succ, List.getElem?_eq_getElem hi]
    simp
  rw [hts]
  exact congrArg _ (DBIterator.run_reverse es fuel i h (by omega))

/-- The element found at `findIdx` (when in range) is the `find?` result. -/
theorem findIdx_dite_eq_find? {α : Type} (p : α → Bool) :
    ∀ (l : List α),
    (if h : l.findIdx p < l.length then some (l.get ⟨l.findIdx p, h⟩) else none)
      = l.find? p := by
  intro l
  induction l with
  | nil => simp
  | cons a t ih =>
      by_cases hp : p a
      · rw [List.find?_cons_of_pos _ hp]
        have h0 : (a :: t).findIdx p = 0 := by
          rw [List.findIdx_cons _ a t, hp]; rfl
        simp [h0]
      · rw [List.find?_cons_of_neg _ hp, ← ih]
        have hp2 : p a = false := by simp [hp]
        have h1 : (a :: t).findIdx p = t.findIdx p + 1 := by
          rw [List.findIdx_cons _ a t, hp2]; rfl
        rw [h1]
        by_cases hidx : t.findIdx p < t.length
        · have h2 : t.findIdx p + 1 < (a :: t).length := by
            rw [List.length_cons]; omega
          simp [hidx, h2]
        · have h2 : ¬ (t.findIdx p + 1 < (a :: t).length) := by
            rw [List.length_cons]; omega
          simp [hidx, h2]

/-- On a keyspace with strictly increasing keys, the first entry whose key is
`≥ k` carries the smallest stored key that is `≥ k`. -/
theorem find?_ge_is_minimal (k : Bytes) :
    ∀ (es : List Entry), es.Pairwise (fun a b => a.1 < b.1) →
    ∀ (e : Entry), es.find? (fun e2 => decide (k ≤ e2.1)) = some e →
    e ∈ es ∧ k ≤ e.1 ∧ ∀ e2 ∈ es, k ≤ e2.1 → e.1 ≤ e2.1 := by
  intro es
  induction es with
  | nil => intro _ e hf; simp at hf
  | cons a t ih =>
      intro hs e hf
      have ha : ∀ b ∈ t, a.1 < b.1 := (List.pairwise_cons.mp hs).1
      have ht : t.Pairwise (fun a b => a.1 < b.1) := (List.pairwise_cons.mp hs).2
      by_cases hp : k ≤ a.1
      · rw [List.find?_cons_of_pos _ (by simpa using hp)] at hf
        have hea : e = a := by simpa using hf.symm
        subst hea
        refine ⟨List.mem_cons_self _ _, hp, ?_⟩
        intro e2 he2 _
        rcases List.mem_cons.mp he2 with h | h
        · rw [h]
        · exact le_of_lt (ha e2 h)
      · rw [List.find?_cons_of_neg _ (by simpa using hp)] at hf
        obtain ⟨hmem, hge, hmin⟩ := ih ht e hf
        refine ⟨List.mem_cons_of_mem _ hmem, hge, ?_⟩
        intro e2 he2 hk2
        rcases List.mem_cons.mp he2 with h | h
        · rw [h] at hk2; exact absurd hk2 hp
        · exact hmin e2 h hk2

/-- The cursor element at an explicit position is the entry there, if any. -/
theorem DBRawIterator.currentEntry_at (es : List Entry) (i : Nat) :
    (DBRawIterator.mk es (some i)).currentEntry
      = if h : i < es.length then some (es.get ⟨i, h⟩) else none := by
  by_cases h : i < es.length <;>
    simp [DBRawIterator.currentEntry, DBRawIterator.key, DBRawIterator.value, h]

/-- C2: over a keyspace whose stored keys are strictly increasing in byte
order, an iterator constructed in mode `Start` drains to exactly the stored
entries (keys strictly increasing), one constructed in mode `End` drains to
the reversed entries (keys strictly decreasing), and one constructed in mode
`From(k, Forward)` first yields the entry with the smallest stored key
byte-lexicographically `≥ k`, or nothing when no stored key is `≥ k`. -/
theorem C2_iterator_mode_order (es : List Entry) (k : Bytes)
    (hs : es.Pairwise (fun a b => a.1 < b.1)) :
    DBIterator.run (DBIterator.new es .Start) es.length = es
    ∧ ((DBIterator.run (DBIterator.new es .Start) es.length).map Prod.fst).Pairwise (· < ·)
    ∧ DBIterator.run (DBIterator.new es .End) es.length = es.reverse
    ∧ ((DBIterator.run (DBIterator.new es .End) es.length).map Prod.fst).Pairwise (· > ·)
    ∧ ((DBIterator.new es (.From k .Forward)).next).1
        = es.find? (fun e => decide (k ≤ e.1))
    ∧ (∀ e, es.find? (fun e2 => decide (k ≤ e2.1)) = some e →
        (e ∈ es ∧ k ≤ e.1 ∧ ∀ e2 ∈ es, k ≤ e2.1 → e.1 ≤ e2.1))
    ∧ (es.find? (fun e => decide (k ≤ e.1)) = none →
        ((DBIterator.new es (.From k .Forward)).next).1 = none) := by
  have hstart : DBIterator.new es .Start
      = ⟨⟨es, some 0⟩, .Forward, true⟩ := rfl
  have hend : DBIterator.new es .End
      = ⟨⟨es, some (es.length - 1)⟩, .Reverse, true⟩ := rfl
  have c1 : DBIterator.run (DBIterator.new es .Start) es.length = es := by
    cases hlen : es.length with
    | zero =>
        have hnil : es = [] := List.length_eq_zero.mp hlen
        subst hnil
        rfl
    | succ m =>
        rw [hstart]
        rw [DBIterator.run_seeked_forward es 0 m (by omega)]
        exact List.drop_zero es
  have c3 : DBIterator.run (DBIterator.new es .End) es.length = es.reverse := by
    cases hlen : es.length with
    | zero =>
        have hnil : es = [] := List.length_eq_zero.mp hlen
        subst hnil
        rfl
    | succ m =>
        rw [hend, hlen]
        simp only [Nat.add_sub_cancel]
        rw [DBIterator.run_seeked_reverse es m m (by omega) (le_refl m)]
        rw [← hlen, List.take_length]
  have c5 : ((DBIterator.new es (.From k .Forward)).next).1
      = es.find? (fun e => decide (k ≤ e.1)) := by
    have hfrom : DBIterator.new es (.From k .Forward)
        = ⟨⟨es, some (es.findIdx (fun e => decide (k ≤ e.1)))⟩, .Forward, true⟩ := rfl
    rw [hfrom, DBIterator.next_eq]
    have hst : (⟨⟨es, some (es.findIdx (fun e => decide (k ≤ e.1)))⟩, .Forward, true⟩
        : DBIterator).step_state
        = ⟨⟨es, some (es.findIdx (fun e => decide (k ≤ e.1)))⟩, .Forward, false⟩ := rfl
    rw [hst]
    show (DBRawIterator.mk es
        (some (es.findIdx (fun e => decide (k ≤ e.1))))).currentEntry = _
    rw [DBRawIterator.currentEntry_at]
    exact findIdx_dite_eq_find? _ es
  refine ⟨c1, ?_, c3, ?_, c5, find?_ge_is_minimal k es hs, fun h => c5.trans h⟩
  · rw [c1, List.pairwise_map]
    exact hs
  · rw [c3, List.pairwise_map]
    exact (List.pairwise_reverse).mpr hs

/-- Witness for C2: on a two-entry sorted keyspace, `Start` drains in stored
order and `From([2], Forward)` first yields the entry at key `[2]`. -/
theorem C2_witness :
    DBIterator.run (DBIterator.new [([1], [10]), ([2], [20])] .Start) 2
        = [([1], [10]), ([2], [20])]
    ∧ ((DBIterator.new [([1], [10]), ([2], [20])] (.From [2] .Forward)).next).1
        = some ([2], [20]) :=
  ⟨(C2_iterator_mode_order [([1], [10]), ([2], [20])] [2] (by decide)).1,
   ((C2_iterator_mode_order [([1], [10]), ([2], [20])] [2] (by decide)).2.2.2.2.1).trans
     (by decide)⟩

/-- C3: a snapshot taken before `put(k, v2)` reads, for key `k`, exactly the
value associated at snapshot-creation time (nothing if absent then), hence
never `v2` whenever `v2` differs from that prior value; and reads against
any later state, as well as iterators derived from the snapshot, observe the
pinned state only. -/
theorem C3_snapshot_pinned_visibility (s s2 : EngineState) (k v2 : Bytes)
    (mode : IteratorMode) :
    Snapshot.get (DB.snapshot s) (enginePut s k v2) k = engineGet s k
    ∧ (engineGet s k ≠ some v2 →
        Snapshot.get (DB.snapshot s) (enginePut s k v2) k ≠ some v2)
    ∧ Snapshot.get (DB.snapshot s) s2 k = engineGet s k
    ∧ Snapshot.iterator (DB.snapshot s) s2 mode = DBIterator.new s mode := by
  exact ⟨rfl, fun h => h, rfl, rfl⟩

/-- Witness for C3: with `[1] ↦ [5]` stored, a snapshot taken before
`put([1], [9])` does not read `[9]` for key `[1]`. -/
theorem C3_witness :
    engineGet [([1], [5])] [1] ≠ some [9]
    ∧ Snapshot.get (DB.snapshot [([1], [5])])
        (enginePut [([1], [5])] [1] [9]) [1] ≠ some [9] :=
  ⟨by decide,
   (C3_snapshot_pinned_visibility [([1], [5])] [] [1] [9] .Start).2.1 (by decide)⟩

/-- C4 counterexample: the pessimistic `Snapshot::get` is not performed by
opening a throwaway transaction (it reads the database directly), and the
throwaway transactions of the pessimistic snapshot iterators are not
configured to pin the snapshot, so the claim's structural description fails
for the pessimistic variant. -/
theorem C4_counterexample :
    TransactionDB.snapshot_get_impl.path = ReadPath.directDb
    ∧ TransactionDB.snapshot_get_impl.path ≠ ReadPath.throughTxn
    ∧ TransactionDB.snapshot_iterator_impl.txn_opts_set_snapshot = false
    ∧ TransactionDB.snapshot_raw_iterator_impl.txn_opts_set_snapshot = false := by
  refine ⟨rfl, ?_, rfl, rfl⟩
  decide

/-- C4 (amended): in the optimistic variant every snapshot read operation
(`get`, `get_cf`, `iterator`, `iterator_cf`, `raw_iterator`,
`raw_iterator_cf`) opens a throwaway transaction with snapshot-pinning
transaction options and snapshot-carrying read options; in the pessimistic
variant `get` reads the database directly while the iterators open a
throwaway transaction with default options; in every case the read options
pin the snapshot, and the externally observed result of a snapshot read is
the value as of snapshot creation, identical for both database flavors. -/
theorem C4_amended_snapshot_read_equivalence (sn : Snapshot)
    (current : EngineState) (key : Bytes) :
    OptimisticTransactionDB.snapshot_get_impl
        = ⟨ReadPath.throughTxn, true, true⟩
    ∧ OptimisticTransactionDB.snapshot_get_cf_impl
        = ⟨ReadPath.throughTxn, true, true⟩
    ∧ OptimisticTransactionDB.snapshot_iterator_impl
        = ⟨ReadPath.throughTxn, true, true⟩
    ∧ OptimisticTransactionDB.snapshot_iterator_cf_impl
        = ⟨ReadPath.throughTxn, true, true⟩
    ∧ OptimisticTransactionDB.snapshot_raw_iterator_impl
        = ⟨ReadPath.throughTxn, true, true⟩
    ∧ OptimisticTransactionDB.snapshot_raw_iterator_cf_impl
        = ⟨ReadPath.throughTxn, true, true⟩
    ∧ TransactionDB.snapshot_get_impl.read_opts_set_snapshot = true
    ∧ TransactionDB.snapshot_iterator_impl.read_opts_set_snapshot = true
    ∧ TransactionDB.snapshot_raw_iterator_impl.read_opts_set_snapshot = true
    ∧ OptimisticTransactionDB.snapshot_get sn current key
        = engineGet sn.view key
    ∧ TransactionDB.snapshot_get sn current key = engineGet sn.view key
    ∧ OptimisticTransactionDB.snapshot_get sn current key
        = TransactionDB.snapshot_get sn current key :=
  ⟨rfl, rfl, rfl, rfl, rfl, rfl, rfl, rfl, rfl, rfl, rfl, rfl⟩

/-- C5: evaluation at the failing input.  On a registry holding family
`"cf1"` with handle `7`, the optimistic `drop_cf` reports success yet
`cf_handle` still yields the dropped family's handle, while the plain
database's `drop_cf` removes the entry so the lookup yields nothing. -/
theorem C5_optimistic_drop_cf_keeps_entry :
    (OptimisticTransactionDB.drop_cf
        (CfRegistry.insert CfRegistry.empty "cf1" 7) "cf1" (Except.ok ())).2
      = Except.ok ()
    ∧ OptimisticTransactionDB.cf_handle
        (OptimisticTransactionDB.drop_cf
          (CfRegistry.insert CfRegistry.empty "cf1" 7) "cf1" (Except.ok ())).1
        "cf1" = some 7
    ∧ (DB.drop_cf (CfRegistry.insert CfRegistry.empty "cf1" 7) "cf1"
        (Except.ok ())).2 = Except.ok ()
    ∧ DB.cf_handle
        (DB.drop_cf (CfRegistry.insert CfRegistry.empty "cf1" 7) "cf1"
          (Except.ok ())).1 "cf1" = none := by
  refine ⟨?_, ?_, ?_, ?_⟩ <;>
    simp [OptimisticTransactionDB.drop_cf, DB.drop_cf,
      OptimisticTransactionDB.cf_handle, DB.cf_handle,
      CfRegistry.insert, CfRegistry.remove, CfRegistry.empty]

/-- C6: a family-aware open with a non-empty request list whose engine handle
vector contains a null handle returns the typed null-handle error, for both
database flavors, and no database (hence no partially filled registry) is
returned. -/
theorem C6_open_cf_null_handle_is_error (path : PathBytes) (cfs : List String)
    (hs2 : List (Option Nat)) (hne : cfs ≠ [])
    (hnull : hs2.any Option.isNone = true) (hpath : path.contains 0 = false) :
    DB.open_cf path cfs hs2
        = Outcome.err "Received null column family handle from DB."
    ∧ OptimisticTransactionDB.open_cf path cfs hs2
        = Outcome.err "Received null column family handle from DB."
    ∧ (∀ reg, DB.open_cf path cfs hs2 ≠ Outcome.ok reg)
    ∧ (∀ reg, OptimisticTransactionDB.open_cf path cfs hs2 ≠ Outcome.ok reg) := by
  have hcs : cstringNew path = some path := by
    unfold cstringNew
    rw [hpath]
    rfl
  have hemp : cfs.isEmpty = false := by
    cases cfs with
    | nil => exact absurd rfl hne
    | cons a t => rfl
  have h1 : DB.open_cf path cfs hs2
      = Outcome.err "Received null column family handle from DB." := by
    simp [DB.open_cf, hcs, hemp, hnull]
  have h2 : OptimisticTransactionDB.open_cf path cfs hs2
      = Outcome.err "Received null column family handle from DB." := by
    simp [OptimisticTransactionDB.open_cf, to_cpath, hcs, hemp, hnull]
  refine ⟨h1, h2, ?_, ?_⟩
  · intro reg hok
    rw [h1] at hok
    exact Outcome.noConfusion hok
  · intro reg hok
    rw [h2] at hok
    exact Outcome.noConfusion hok

/-- Witness for C6: requesting `["cf1"]` while the engine returns a null
second handle yields the typed error. -/
theorem C6_witness :
    DB.open_cf [107] ["cf1"] [some 1, none]
      = Outcome.err "Received null column family handle from DB." :=
  (C6_open_cf_null_handle_is_error [107] ["cf1"] [some 1, none]
    (by decide) (by decide) (by decide)).1

/-- Every staging method reports success and appends exactly one operation. -/
theorem WriteBatch.stage_ok (b : WriteBatch) (op : BatchOp) :
    (b.stage op).2 = Except.ok () ∧ (b.stage op).1.len = b.len + 1 := by
  cases op with
  | putOp cf k v =>
      cases cf <;>
        simp [WriteBatch.stage, WriteBatch.put, WriteBatch.put_cf, WriteBatch.len]
  | mergeOp cf k v =>
      cases cf <;>
        simp [WriteBatch.stage, WriteBatch.merge, WriteBatch.merge_cf, WriteBatch.len]
  | deleteOp cf k =>
      cases cf <;>
        simp [WriteBatch.stage, WriteBatch.delete, WriteBatch.delete_cf, WriteBatch.len]

/-- Staging a sequence reports success for every operation and grows the
count by the number of staged operations. -/
theorem WriteBatch.stageAll_spec (ops : List BatchOp) :
    ∀ (b : WriteBatch),
    (WriteBatch.stageAll b ops).2 = ops.map (fun _ => Except.ok ())
    ∧ (WriteBatch.stageAll b ops).1.len = b.len + ops.length := by
  induction ops with
  | nil => intro b; simp [WriteBatch.stageAll]
  | cons op rest ih =>
      intro b
      have h := WriteBatch.stage_ok b op
      constructor
      · simp [WriteBatch.stageAll, ((ih (b.stage op).1)).1, h.1]
      · simp only [WriteBatch.stageAll, List.length_cons]
        rw [((ih (b.stage op).1)).2, h.2]
        omega

/-- C7: staging `put`/`merge`/`delete` (and their family-scoped variants)
always reports local success; after staging `N` operations on a fresh batch,
`len` is `N` and `is_empty` holds exactly when `N = 0`; and applying an empty
batch through the database write leaves the whole store unchanged and
succeeds. -/
theorem C7_write_batch_staging (ops : List BatchOp)
    (mergeFn : Option Bytes → Bytes → Bytes) (s : StoreState) :
    (WriteBatch.stageAll WriteBatch.default ops).2
        = ops.map (fun _ => Except.ok ())
    ∧ (WriteBatch.stageAll WriteBatch.default ops).1.len = ops.length
    ∧ ((WriteBatch.stageAll WriteBatch.default ops).1.is_empty = true
        ↔ ops.length = 0)
    ∧ (DB.write mergeFn s WriteBatch.default).1 = s
    ∧ (DB.write mergeFn s WriteBatch.default).2 = Except.ok () := by
  have h := WriteBatch.stageAll_spec ops WriteBatch.default
  have hlen : (WriteBatch.stageAll WriteBatch.default ops).1.len = ops.length := by
    rw [h.2]
    simp [WriteBatch.default, WriteBatch.len]
  refine ⟨h.1, hlen, ?_, rfl, rfl⟩
  rw [WriteBatch.is_empty, hlen]
  exact beq_iff_eq

/-- Looking up a name inserted by the registration fold succeeds. -/
theorem registerAll_lookup_isSome (name : String) :
    ∀ (pairs : List (String × Nat)) (m : CfRegistry),
    (name ∈ pairs.map Prod.fst ∨ (m name).isSome = true) →
    ((pairs.foldl (fun m2 p => CfRegistry.insert m2 p.1 p.2) m) name).isSome
      = true := by
  intro pairs
  induction pairs with
  | nil =>
      intro m h
      rcases h with h | h
      · simp at h
      · exact h
  | cons p rest ih =>
      intro m h
      rw [List.foldl_cons]
      apply ih
      by_cases hn : name = p.1
      · right
        simp [CfRegistry.insert, hn]
      · rcases h with h | h
        · rw [List.map_cons, List.mem_cons] at h
          rcases h with h | h
          · exact absurd h hn
          · exact Or.inl h
        · right
          rw [show (CfRegistry.insert m p.1 p.2) name = m name by
            simp [CfRegistry.insert, hn]]
          exact h

/-- Filtering the `some`s out of an all-`some` list keeps its length. -/
theorem filterMap_id_length_of_all_isSome :
    ∀ (hs2 : List (Option Nat)), hs2.all Option.isSome = true →
    (hs2.filterMap (fun h => h)).length = hs2.length := by
  intro hs2
  induction hs2 with
  | nil => intro _; rfl
  | cons a t ih =>
      intro h
      rw [List.all_cons, Bool.and_eq_true] at h
      cases a with
      | none => simp at h
      | some v => simp [List.filterMap_cons, ih h.2]

/-- The reserved name is always in the extended request list. -/
theorem default_mem_cfsVector (cfs : List String) :
    "default" ∈ cfsVector cfs := by
  unfold cfsVector
  by_cases h : cfs.contains "default"
  · rw [if_pos h]
    exact List.elem_iff.mp h
  · rw [if_neg h]
    simp

/-- C8 counterexample: a family-aware open with an empty request list
succeeds while registering nothing, so the resulting registry has no entry
for the reserved name `"default"`, for both database flavors. -/
theorem C8_counterexample_empty_open :
    DB.open_cf [107] [] [] = Outcome.ok CfRegistry.empty
    ∧ OptimisticTransactionDB.open_cf [107] [] [] = Outcome.ok CfRegistry.empty
    ∧ DB.cf_handle CfRegistry.empty "default" = none
    ∧ OptimisticTransactionDB.cf_handle CfRegistry.empty "default" = none :=
  ⟨rfl, rfl, rfl, rfl⟩

/-- C8 (amended): for every family-aware open with a NON-EMPTY requested
list that returns success (encodable path, a full engine handle vector with
no nulls), the resulting registry contains an entry for the reserved name
`"default"`, whether or not `"default"` was among the requested names — for
both database flavors. -/
theorem C8_amended_nonempty_open_registers_default (path : PathBytes)
    (cfs : List String) (handles : List (Option Nat)) (hne : cfs ≠ [])
    (hpath : path.contains 0 = false)
    (hsome : handles.all Option.isSome = true)
    (hlen : handles.length = (cfsVector cfs).length) :
    (match DB.open_cf path cfs handles with
     | Outcome.ok reg => (DB.cf_handle reg "default").isSome = true
     | Outcome.err _ => False
     | Outcome.panicked => False)
    ∧ (match OptimisticTransactionDB.open_cf path cfs handles with
     | Outcome.ok reg =>
         (OptimisticTransactionDB.cf_handle reg "default").isSome = true
     | Outcome.err _ => False
     | Outcome.panicked => False) := by
  have hcs : cstringNew path = some path := by
    unfold cstringNew
    rw [hpath]
    rfl
  have hemp : cfs.isEmpty = false := by
    cases cfs with
    | nil => exact absurd rfl hne
    | cons a t => rfl
  have hnull : (handles.any (fun h => h.isNone)) = false := by
    rw [List.any_eq_false]
    intro x hx
    have hxs := List.all_eq_true.mp hsome x hx
    cases x with
    | none => simp at hxs
    | some v => simp
  have hreg : "default" ∈ ((cfsVector cfs).zip
      (handles.filterMap (fun h => h))).map Prod.fst := by
    rw [List.map_fst_zip]
    · exact default_mem_cfsVector cfs
    · rw [filterMap_id_length_of_all_isSome handles hsome, hlen]
  have hlook := registerAll_lookup_isSome "default"
    ((cfsVector cfs).zip (handles.filterMap (fun h => h)))
    CfRegistry.empty (Or.inl hreg)
  have h1 : DB.open_cf path cfs handles
      = Outcome.ok (registerAll ((cfsVector cfs).zip
          (handles.filterMap (fun h => h)))) := by
    simp [DB.open_cf, hcs, hemp, hnull]
  have h2 : OptimisticTransactionDB.open_cf path cfs handles
      = Outcome.ok (registerAll ((cfsVector cfs).zip
          (handles.filterMap (fun h => h)))) := by
    simp [OptimisticTransactionDB.open_cf, to_cpath, hcs, hemp, hnull]
  rw [h1, h2]
  exact ⟨hlook, hlook⟩

/-- Witness for C8: opening with requested list `["cf1"]` and a full handle
vector registers `"default"`. -/
theorem C8_witness :
    (match DB.open_cf [107] ["cf1"] [some 1, some 2] with
     | Outcome.ok reg => (DB.cf_handle reg "default").isSome = true
     | Outcome.err _ => False
     | Outcome.panicked => False) :=
  (C8_amended_nonempty_open_registers_default [107] ["cf1"] [some 1, some 2]
    (by decide) (by decide) (by decide) (by decide)).1

/-- C9 counterexample: `DB::destroy` on a path whose bytes contain an
interior NUL aborts (the `unwrap` of the path conversion fails) instead of
returning through the typed error channel. -/
theorem C9_counterexample_destroy_panics :
    DB.destroy [97, 0] (Except.ok ()) = Outcome.panicked := rfl

/-- C9 (amended): on paths whose bytes cannot be encoded (interior NUL), the
open operations of all database variants and `OptimisticTransactionDB::destroy`
return the typed path-conversion error, but `DB::destroy`, `DB::repair`,
`TransactionDB::destroy` and `TransactionDB::repair` abort via the `unwrap`
of the path conversion; the options-construction abort is untouched by this
claim. -/
theorem C9_amended_path_error_channels (path : PathBytes) (cfs : List String)
    (hs2 : List (Option Nat)) (eng : Except String Unit)
    (h : path.contains 0 = true) :
    DB.open_cf path cfs hs2
        = Outcome.err "Failed to convert path to CString when opening DB."
    ∧ OptimisticTransactionDB.open_cf path cfs hs2
        = Outcome.err "Failed to convert path to CString when opening DB."
    ∧ TransactionDB.open path eng
        = Outcome.err "Failed to convert path to CString when opening DB."
    ∧ OptimisticTransactionDB.destroy path eng
        = Outcome.err "Failed to convert path to CString when opening DB."
    ∧ DB.destroy path eng = Outcome.panicked
    ∧ DB.repair path eng = Outcome.panicked
    ∧ TransactionDB.destroy path eng = Outcome.panicked
    ∧ TransactionDB.repair path eng = Outcome.panicked := by
  have hcs : cstringNew path = none := by
    unfold cstringNew
    rw [h]
    rfl
  refine ⟨?_, ?_, ?_, ?_, ?_, ?_, ?_, ?_⟩ <;>
    simp [DB.open_cf, OptimisticTransactionDB.open_cf, TransactionDB.open,
      OptimisticTransactionDB.destroy, DB.destroy, DB.repair,
      TransactionDB.destroy, TransactionDB.repair, to_cpath, hcs]

/-- Witness for C9 (amended): on the path bytes `[97, 0]`, `open_cf` returns
the typed error while `TransactionDB::destroy` aborts. -/
theorem C9_witness :
    DB.open_cf [97, 0] [] []
        = Outcome.err "Failed to convert path to CString when opening DB."
    ∧ TransactionDB.destroy [97, 0] (Except.ok ()) = Outcome.panicked :=
  ⟨(C9_amended_path_error_channels [97, 0] [] [] (Except.ok ()) (by decide)).1,
   (C9_amended_path_error_channels [97, 0] [] [] (Except.ok ())
     (by decide)).2.2.2.2.2.2.1⟩
